import Mathlib

/-!
Verification development for the `csvtools` repository (two Go command-line
programs in `main.go`: a CSV-to-spreadsheet converter and a CSV-to-SQLite
importer).  The definitions below are a shallow embedding of the functions
the claims refer to; Go strings are modelled as Lean `String`s (the inputs
of interest are ASCII, where Go's byte indexing and Lean's character
indexing agree), machine integers as `Nat`, and fallible operations by
explicit outcome values.
-/

namespace CsvTools

/-- A character accepted by the importer's identifier regex class
`[a-zA-Z0-9_]` (everything else is in the complement class that gets
replaced). -/
def isWordChar (c : Char) : Bool :=
  ('a' ≤ c && c ≤ 'z') || ('A' ≤ c && c ≤ 'Z') || ('0' ≤ c && c ≤ '9') || c = '_'

/-- Embedding of `regexp.MustCompile("[^a-zA-Z0-9_]+").ReplaceAllString(name, "_")`:
every maximal run of characters outside `[a-zA-Z0-9_]` is replaced by a
single underscore.  The `Bool` argument records whether the previous
character was part of such a run (so the run contributes only one
underscore). -/
def collapseNonWord : Bool → List Char → List Char
  | _, [] => []
  | inRun, c :: cs =>
      if isWordChar c then c :: collapseNonWord false cs
      else if inRun then collapseNonWord true cs
      else '_' :: collapseNonWord true cs

/-- Embedding of `strings.Trim(s, "_")`: remove all leading and trailing
underscores. -/
def trimUnderscores (cs : List Char) : List Char :=
  ((cs.dropWhile (· = '_')).reverse.dropWhile (· = '_')).reverse

/-- Embedding of `sanitizeName` from the database importer (`main.go`):
replace runs of non-word characters by `_`; if the result starts with a
digit, prefix `_`; trim leading/trailing underscores; if the result is
empty return `"unnamed_column"`. -/
def sanitizeName (name : String) : String :=
  let sanitized := collapseNonWord false name.data
  let sanitized :=
    if h : sanitized ≠ [] then
      if '0' ≤ sanitized.head h && sanitized.head h ≤ '9' then '_' :: sanitized
      else sanitized
    else sanitized
  let sanitized := trimUnderscores sanitized
  if sanitized = [] then "unnamed_column" else String.mk sanitized

/-- Embedding of the table-name computation in `processCSVFile`:
`tableName := sanitizeName(base)` followed by the
`if tableName == "" { tableName = "default_table" }` fallback. -/
def tableNameFor (base : String) : String :=
  let tableName := sanitizeName base
  if tableName = "" then "default_table" else tableName

/-- Embedding of the output-path computation in the importer's `main`:
`fmt.Sprintf("%s/%s.db", destDir, "combined.db")`. -/
def databaseFilePath (destDir : String) : String :=
  destDir ++ "/" ++ "combined.db" ++ ".db"

/-- Metadata the spreadsheet tool's enumerator pairs with each CSV file
(`FileMetadata` in `main.go`). -/
structure FileMetadata where
  NameWithoutExt : String
  FullPath : String
deriving DecidableEq

/-- A directory entry as seen by `ioutil.ReadDir` / `os.ReadDir`: a name and
whether the entry is a directory. -/
structure DirEntry where
  name : String
  isDir : Bool
deriving DecidableEq

/-- The per-entry test in `getFileNames`: `!file.IsDir()`, `len(name) > 4`
and `name[len(name)-4:] == ".csv"`. -/
def isCsvEntry (file : DirEntry) : Bool :=
  !file.isDir && decide (4 < file.name.length) && file.name.takeRight 4 == ".csv"

/-- Embedding of `getFileNames` from the spreadsheet tool: the directory
listing is passed explicitly (the Go code obtains it from
`ioutil.ReadDir`); entries passing `isCsvEntry` are paired with their name
minus the 4-character extension and `directory + "/" + name`. -/
def getFileNames (directory : String) (files : List DirEntry) : List FileMetadata :=
  files.filterMap fun file =>
    if isCsvEntry file then
      some { NameWithoutExt := file.name.dropRight 4
             FullPath := directory ++ "/" ++ file.name }
    else none

/-- Embedding of the record-width adjustment in `processCSVFile`: a record
shorter than the header is padded with `""` up to the header length, a
longer one is truncated to it. -/
def adjustRecord (numCols : Nat) (record : List String) : List String :=
  if record.length < numCols then
    record ++ List.replicate (numCols - record.length) ""
  else if numCols < record.length then
    record.take numCols
  else record

/-- One iteration's input in the importer's row loop: either `reader.Read`
yields a record (with `execOk` telling whether the subsequent `stmt.Exec`
succeeds), or it yields a non-EOF error.  End of the list plays the role of
`io.EOF`. -/
inductive ReadStep where
  | row (fields : List String) (execOk : Bool)
  | fail (msg : String)
deriving DecidableEq

/-- Outcome of the transaction part of `processCSVFile`: the function's
returned error (`none` = nil), whether the deferred handler rolled the
transaction back, and the rows durable in the database after the handler
ran. -/
structure TxOutcome where
  result : Option String
  rolledBack : Bool
  committedRows : List (List String)
deriving DecidableEq

/-- Embedding of the `for { record, err := reader.Read() ... }` loop of
`processCSVFile`: returns the loop's error outcome (the value the `return`
statements hand back) together with the list of rows inserted into the
transaction so far.  EOF breaks the loop with a nil error. -/
def insertLoop (hdr : List String) : List ReadStep → List (List String) → Option String × List (List String)
  | [], inserted => (none, inserted)
  | ReadStep.fail msg :: _, inserted =>
      (some ("failed to read record: " ++ msg), inserted)
  | ReadStep.row fields execOk :: rest, inserted =>
      let record := adjustRecord hdr.length fields
      if execOk then insertLoop hdr rest (inserted ++ [record])
      else (some "failed to insert row", inserted)

/-- Embedding of `processCSVFile` from after its successful `tx.Prepare`
(header read, table creation, `db.Begin` and `tx.Prepare` all succeeded;
their failure paths return before any row is inserted).  The deferred
commit/rollback handler tests the function-scoped `err` variable; inside
the row loop `record, err := reader.Read()` declares a new block-scoped
`err`, and `_, err = stmt.Exec(...)` assigns to that block-scoped variable,
so the function-scoped `err` the handler sees is still the nil left by the
successful `Prepare`, and the handler takes the `tx.Commit()` branch on
every exit from the loop. -/
def processCSVRows (hdr : List String) (reads : List ReadStep) : TxOutcome :=
  let loopOut := insertLoop hdr reads []
  let outerErr : Option String := none
  match outerErr with
  | some _ => { result := loopOut.1, rolledBack := true, committedRows := [] }
  | none => { result := loopOut.1, rolledBack := false, committedRows := loopOut.2 }

/-- The per-entry test in the importer's `main` loop: `!fileInfo.IsDir()`
and `strings.HasSuffix(fileInfo.Name(), ".csv")` (no length guard, unlike
the spreadsheet tool's `getFileNames`); the suffix test is taken on the
name's character list. -/
def isDbCsvEntry (file : DirEntry) : Bool :=
  !file.isDir && List.isSuffixOf ".csv".data file.name.data

/-- Embedding of the file loop in the importer's `main`: `proc` abstracts
`processCSVFile`'s returned error (`none` = nil; `some e` covers header
parse, table-creation and row read/insert failures alike).  Returns the
file paths handed to `processCSVFile`, in order, and the error lines
printed to standard output. -/
def dbMainLoop (proc : String → Option String) (sourceDir : String) : List DirEntry → List String × List String
  | [] => ([], [])
  | file :: rest =>
      if isDbCsvEntry file then
        let filePath := sourceDir ++ "/" ++ file.name
        let tail := dbMainLoop proc sourceDir rest
        match proc filePath with
        | none => (filePath :: tail.1, tail.2)
        | some e => (filePath :: tail.1, ("Error processing " ++ filePath ++ ": " ++ e) :: tail.2)
      else dbMainLoop proc sourceDir rest

/-- Embedding of the exit status of the importer's `main`: missing flags hit
`os.Exit(1)`; a failed `sql.Open`, a failed `db.Ping` or a failed
`os.ReadDir` print the error and `return` from `main`, which ends the
process with status 0; so does the normal end of `main`. -/
def dbMainExitCode (sourceDir destDir : String) (openOk pingOk readDirOk : Bool) : Nat :=
  if sourceDir = "" ∨ destDir = "" then 1
  else if openOk = false then 0
  else if pingOk = false then 0
  else if readDirOk = false then 0
  else 0

/-- Splitting a character list at every comma, the field built so far in
`cur`; no character is quote-aware. -/
def splitAtCommas : List Char → String → List String
  | [], cur => [cur]
  | ',' :: rest, cur => cur :: splitAtCommas rest ""
  | c :: rest, cur => splitAtCommas rest (cur.push c)

/-- Embedding of `strings.Split(line, ",")` as used by the spreadsheet
tool's scanner loop: split at every comma with no quote handling. -/
def goSplitLine (line : String) : List String :=
  splitAtCommas line.data ""

/-- Model of the field splitting Go's `encoding/csv` reader (as configured
by the importer: `csv.NewReader` with `FieldsPerRecord = -1`) performs on a
single-line record: fields are separated by commas, a `"`-delimited field
may contain commas, and `""` inside a quoted field denotes a literal quote.
Malformed-quoting errors are not modelled here; a failing `reader.Read` is
represented abstractly by `ReadStep.fail`.  The `Bool` argument tracks
whether the scan is inside a quoted field, `cur` the field being built and
`acc` the completed fields. -/
def csvSplitAux : List Char → Bool → String → List String → List String
  | [], _, cur, acc => acc ++ [cur]
  | '"' :: '"' :: rest, true, cur, acc => csvSplitAux rest true (cur.push '"') acc
  | '"' :: rest, true, cur, acc => csvSplitAux rest false cur acc
  | c :: rest, true, cur, acc => csvSplitAux rest true (cur.push c) acc
  | ',' :: rest, false, cur, acc => csvSplitAux rest false "" (acc ++ [cur])
  | '"' :: rest, false, cur, acc => csvSplitAux rest true cur acc
  | c :: rest, false, cur, acc => csvSplitAux rest false (cur.push c) acc

/-- One record of standard CSV parsing of a single line, per the
`csvSplitAux` model. -/
def csvReadRow (line : String) : List String :=
  csvSplitAux line.data false "" []

/-- Value a `flag.StringVar` flag of the spreadsheet tool carries after
`flag.Parse()`: the supplied string, or the registered default `"unknown"`
when the flag was omitted. -/
def xlsxFlagValue : Option String → String
  | some v => v
  | none => "unknown"

/-- Embedding of the spreadsheet tool's required-flag gate:
`if srcDir == "unknown" || destDir == "unknown"` logs an error and calls
`os.Exit(1)`; otherwise `main` continues (`none`).  The gate runs before
any file-system access, so it sees only the two strings. -/
def xlsxMissingFlagExit (srcDir destDir : String) : Option Nat :=
  if srcDir = "unknown" ∨ destDir = "unknown" then some 1 else none

/-- The last step of `sanitizeName` never produces the empty string. -/
theorem ifEmpty_default_ne_empty (cs : List Char) :
    (if cs = [] then "unnamed_column" else String.mk cs) ≠ "" := by
  by_cases h : cs = []
  · simp [h]
  · simp only [h, if_neg, ite_false]
    intro hEq
    exact h (congrArg String.data hEq)

/-- `sanitizeName` is total and never returns the empty string: the empty
case is replaced by `"unnamed_column"` inside the function itself. -/
theorem sanitizeName_ne_empty (base : String) : sanitizeName base ≠ "" :=
  ifEmpty_default_ne_empty _

/-- `adjustRecord` in one equation: keep the first `numCols` fields and pad
with `""` up to `numCols`. -/
theorem adjustRecord_eq (numCols : Nat) (record : List String) :
    adjustRecord numCols record =
      record.take numCols ++ List.replicate (numCols - record.length) "" := by
  unfold adjustRecord
  by_cases h1 : record.length < numCols
  · rw [if_pos h1, List.take_of_length_le (Nat.le_of_lt h1)]
  · rw [if_neg h1]
    have hle : numCols ≤ record.length := Nat.le_of_not_lt h1
    rw [Nat.sub_eq_zero_of_le hle, List.replicate_zero, List.append_nil]
    by_cases h2 : numCols < record.length
    · rw [if_pos h2]
    · rw [if_neg h2, List.take_of_length_le (Nat.le_of_not_lt h2)]

/-- An adjusted record always has exactly `numCols` fields. -/
theorem adjustRecord_length (numCols : Nat) (record : List String) :
    (adjustRecord numCols record).length = numCols := by
  rw [adjustRecord_eq]
  simp only [List.length_append, List.length_take, List.length_replicate]
  omega

/-- Every row the insert loop has added to the transaction has the header's
width. -/
theorem insertLoop_widths (hdr : List String) (reads : List ReadStep)
    (acc : List (List String)) (hacc : ∀ r ∈ acc, r.length = hdr.length) :
    ∀ r ∈ (insertLoop hdr reads acc).2, r.length = hdr.length := by
  induction reads generalizing acc with
  | nil => exact hacc
  | cons step rest ih =>
      cases step with
      | fail msg => exact hacc
      | row fields execOk =>
          by_cases h : execOk = true
          · simp only [insertLoop, h, if_true]
            refine ih _ ?_
            intro r hr
            rcases List.mem_append.mp hr with hl | hl
            · exact hacc r hl
            · rcases List.mem_singleton.mp hl with rfl
              exact adjustRecord_length _ _
          · simp only [insertLoop, h, if_false]
            exact hacc

/-- C1: the claim says a failing row read aborts the file's transaction so
that no rows of the file are committed.  Evaluating the embedded code on a
file whose header is `a`, whose first data row `x` inserts successfully and
whose second row fails to read: the deferred handler sees the nil
function-scoped `err` (the row loop only writes its own shadowing `err`),
takes the `tx.Commit()` branch, and the already-inserted row `[x]` is
committed even though `processCSVFile` returns the read error. -/
theorem C1_row_error_commits_prior_rows :
    processCSVRows ["a"] [ReadStep.row ["x"] true, ReadStep.fail "extraneous quote"] =
      { result := some "failed to read record: extraneous quote"
        rolledBack := false
        committedRows := [["x"]] } ∧
    (processCSVRows ["a"] [ReadStep.row ["x"] true, ReadStep.fail "extraneous quote"]).committedRows ≠ [] := by
  constructor
  · rfl
  · decide

/-- C2: the sanitizer's outputs on the three quoted inputs.  The first two
match the claim, but `"123abc"` sanitizes to `"123abc"`, which begins with
the digit `1`: the `strings.Trim(sanitized, "_")` step strips the very
underscore the digit check just prefixed, so the result is not `"_123abc"`
and the no-leading-digit invariant fails. -/
theorem C2_sanitizeName_digit_prefix_lost :
    sanitizeName "First Name!" = "First_Name" ∧
    sanitizeName "___" = "unnamed_column" ∧
    sanitizeName "123abc" = "123abc" ∧
    sanitizeName "123abc" ≠ "_123abc" ∧
    (sanitizeName "123abc").data.head? = some '1' := by
  refine ⟨by decide, by decide, by decide, by decide, by decide⟩

/-- C3: the claim says an empty sanitization result makes the table name
`default_table`.  In the code `sanitizeName` itself already turns the empty
result into `"unnamed_column"`, so the `if tableName == ""` fallback in
`processCSVFile` never fires: a degenerate base name such as `"___"` yields
the table name `unnamed_column`, and for every base name the table name is
just `sanitizeName base`. -/
theorem C3_unsanitizable_table_name :
    tableNameFor "___" = "unnamed_column" ∧
    tableNameFor "___" ≠ "default_table" ∧
    ∀ base : String, tableNameFor base = sanitizeName base := by
  refine ⟨by decide, by decide, fun base => ?_⟩
  unfold tableNameFor
  rw [if_neg (sanitizeName_ne_empty base)]

/-- C4: the claim says the importer opens `<dest>/combined.db`.  The code
builds the path with `fmt.Sprintf("%s/%s.db", destDir, "combined.db")`,
which appends a second `.db`: for every destination directory the opened
path is `<dest>/combined.db.db`, shown here at `dest = "/data"`. -/
theorem C4_database_path_doubled_extension :
    databaseFilePath "/data" = "/data/combined.db.db" ∧
    databaseFilePath "/data" ≠ "/data/combined.db" ∧
    ∀ destDir : String, databaseFilePath destDir = destDir ++ "/combined.db.db" := by
  refine ⟨by decide, by decide, fun destDir => ?_⟩
  simp [databaseFilePath, String.append_assoc]

/-- C5 counterexample: with both flags supplied but `sql.Open` failing, the
importer prints the error and returns from `main`, so the process exit
status is 0 — not non-zero as the claim states. -/
theorem C5_open_failure_exits_zero :
    dbMainExitCode "srcdir" "destdir" false true true = 0 := by
  decide

/-- C5 amended: the importer exits non-zero exactly when a required flag is
missing (`os.Exit(1)`); when the destination database cannot be opened or
connected to (or the source directory cannot be read) it reports the error
and returns from `main`, exiting with status 0. -/
theorem C5_exit_status_amended :
    ∀ (sourceDir destDir : String) (openOk pingOk readDirOk : Bool),
      dbMainExitCode sourceDir destDir openOk pingOk readDirOk =
        if sourceDir = "" ∨ destDir = "" then 1 else 0 := by
  intro sourceDir destDir openOk pingOk readDirOk
  unfold dbMainExitCode
  by_cases h : sourceDir = "" ∨ destDir = ""
  · rw [if_pos h, if_pos h]
  · rw [if_neg h, if_neg h]
    cases openOk <;> cases pingOk <;> cases readDirOk <;> rfl

/-- C6: every data row is adjusted to the sanitized header's width before
insertion — fields are kept up to the header length and missing positions
are filled with `""` — so every row the transaction holds has exactly one
value per sanitized header column. -/
theorem C6_rows_match_header_width :
    ∀ (header : List String) (record : List String) (reads : List ReadStep),
      adjustRecord (header.map sanitizeName).length record =
        record.take header.length ++ List.replicate (header.length - record.length) "" ∧
      (adjustRecord (header.map sanitizeName).length record).length = header.length ∧
      (((processCSVRows (header.map sanitizeName) reads).committedRows).all
        fun row => row.length == (header.map sanitizeName).length) = true := by
  intro header record reads
  refine ⟨?_, ?_, ?_⟩
  · rw [List.length_map, adjustRecord_eq]
  · rw [List.length_map, adjustRecord_length]
  · rw [List.all_eq_true]
    intro row hrow
    have : row.length = (header.map sanitizeName).length := by
      refine insertLoop_widths _ reads [] (by simp) row ?_
      simpa [processCSVRows] using hrow
    simpa using this

/-- The spreadsheet tool's enumerator, in closed form: the entries passing
`isCsvEntry`, in order, each paired with its stem and full path. -/
theorem getFileNames_eq_filter_map (directory : String) (files : List DirEntry) :
    getFileNames directory files =
      (files.filter isCsvEntry).map
        (fun f => { NameWithoutExt := f.name.dropRight 4
                    FullPath := directory ++ "/" ++ f.name }) := by
  induction files with
  | nil => rfl
  | cons f rest ih =>
      cases h : isCsvEntry f <;>
        simp [getFileNames, List.filterMap_cons, List.filter_cons, h] <;>
        simpa [getFileNames] using ih

/-- C7 counterexample: a directory holding one regular file named `.csv`.
Its name ends in `.csv` (the claimed count N is 1), but `getFileNames`
requires `len(name) > 4` and returns no entry. -/
theorem C7_bare_dot_csv_file_skipped :
    getFileNames "d" [{ name := ".csv", isDir := false }] = [] ∧
    (getFileNames "d" [{ name := ".csv", isDir := false }]).length = 0 ∧
    List.isSuffixOf ".csv".data ".csv".data = true ∧
    (List.filter (fun f => !f.isDir && List.isSuffixOf ".csv".data f.name.data)
      [({ name := ".csv", isDir := false } : DirEntry)]).length = 1 := by
  refine ⟨by decide, by decide, by decide, by decide⟩

/-- C7 amended: for any directory listing, the enumerator returns exactly
one entry per regular file whose name is longer than four characters and
ends in `.csv` (a file named exactly `.csv` is skipped), pairing the name
without the `.csv` extension with `directory ++ "/" ++ name`; everything
else is skipped. -/
theorem C7_enumerator_amended :
    ∀ (directory : String) (files : List DirEntry),
      getFileNames directory files =
        (files.filter isCsvEntry).map
          (fun f => { NameWithoutExt := f.name.dropRight 4
                      FullPath := directory ++ "/" ++ f.name }) ∧
      (getFileNames directory files).length = (files.filter isCsvEntry).length := by
  intro directory files
  refine ⟨getFileNames_eq_filter_map directory files, ?_⟩
  rw [getFileNames_eq_filter_map, List.length_map]

/-- C8: the line `"a,b",c` parses into the 2 fields `a,b` and `c` under the
importer's standard CSV reader, but the spreadsheet tool's raw
`strings.Split(line, ",")` cuts it into 3 fields. -/
theorem C8_quoted_comma_field_counts :
    csvReadRow "\"a,b\",c" = ["a,b", "c"] ∧
    (csvReadRow "\"a,b\",c").length = 2 ∧
    goSplitLine "\"a,b\",c" = ["\"a", "b\"", "c"] ∧
    (goSplitLine "\"a,b\",c").length = 3 := by
  refine ⟨by decide, by decide, by decide, by decide⟩

/-- C9: the importer's main loop hands every `.csv` regular file to
`processCSVFile` no matter how the previous files fared (the processed
list does not depend on `proc`'s failures), and each per-file error
becomes exactly one `Error processing ...` line on standard output; no
per-file error stops the loop. -/
theorem C9_per_file_errors_do_not_stop_run :
    ∀ (proc : String → Option String) (sourceDir : String) (files : List DirEntry),
      (dbMainLoop proc sourceDir files).1 =
        (files.filter isDbCsvEntry).map (fun f => sourceDir ++ "/" ++ f.name) ∧
      (dbMainLoop proc sourceDir files).2 =
        ((files.filter isDbCsvEntry).map (fun f => sourceDir ++ "/" ++ f.name)).filterMap
          (fun p => (proc p).map (fun e => "Error processing " ++ p ++ ": " ++ e)) := by
  intro proc sourceDir files
  induction files with
  | nil => exact ⟨rfl, rfl⟩
  | cons f rest ih =>
      obtain ⟨ih1, ih2⟩ := ih
      cases h : isDbCsvEntry f
      · simpa [dbMainLoop, List.filter_cons, h] using And.intro ih1 ih2
      · cases hp : proc (sourceDir ++ "/" ++ f.name) <;>
          simp [dbMainLoop, List.filter_cons, h, hp, ih1, ih2]

/-- C10: the spreadsheet tool's flag gate sees only the resolved string
values, and a flag explicitly set to `unknown` resolves to the same value
as an omitted flag, so either way the gate logs the error and exits with
status 1 — before any file-system access, so an existing directory named
`unknown` changes nothing. -/
theorem C10_unknown_value_equals_omitted_flag :
    ∀ (srcArg destArg : Option String),
      xlsxMissingFlagExit (xlsxFlagValue (some "unknown")) (xlsxFlagValue destArg) = some 1 ∧
      xlsxMissingFlagExit (xlsxFlagValue srcArg) (xlsxFlagValue (some "unknown")) = some 1 ∧
      xlsxFlagValue (some "unknown") = xlsxFlagValue none ∧
      xlsxMissingFlagExit (xlsxFlagValue (some "unknown")) (xlsxFlagValue destArg) =
        xlsxMissingFlagExit (xlsxFlagValue none) (xlsxFlagValue destArg) ∧
      xlsxMissingFlagExit (xlsxFlagValue srcArg) (xlsxFlagValue (some "unknown")) =
        xlsxMissingFlagExit (xlsxFlagValue srcArg) (xlsxFlagValue none) := by
  intro srcArg destArg
  refine ⟨?_, ?_, rfl, rfl, rfl⟩
  · simp [xlsxMissingFlagExit, xlsxFlagValue]
  · simp [xlsxMissingFlagExit, xlsxFlagValue]

end CsvTools
